import Mathlib

/-!
Verification development for the parliament/companies MCP servers.

We shallowly embed the Python source (pydantic schema layer, debate
flattening pipeline, document filter validation, paging-bound validation,
query-parameter serialization, and the retry-wrapped HTTP GET primitive)
as executable Lean definitions, and prove the specified properties about
those definitions.

Python runtime values that flow through the schema layer are modelled by
`PyVal`; Python dicts are modelled as ordered association lists with
Python's insertion-order-preserving update semantics.
-/

set_option autoImplicit false

namespace Spec2Proof

/-- Model of a Python runtime value as it appears in `model_dump` output,
request-parameter dicts and document metadata: strings, ints, bools,
`None`, `datetime.date` objects, lists and dicts. -/
inductive PyVal where
  | str (s : String)
  | int (n : Int)
  | bool (b : Bool)
  | pynone
  | date (y m d : Nat)
  | list (xs : List PyVal)
  | dict (entries : List (String × PyVal))

/-- A Python dict with string keys, modelled as an ordered association
list (Python dicts preserve insertion order). -/
abbrev PyDict := List (String × PyVal)

/-- Python dict lookup `d[k]` (as an `Option`): first entry with the key. -/
def dictGet (k : String) : PyDict → Option PyVal
  | [] => none
  | e :: rest => if e.1 = k then some e.2 else dictGet k rest

/-- Python dict assignment `d[k] = v`: if the key exists its value is
replaced in place (keeping its position), otherwise the pair is appended. -/
def dictSet (d : PyDict) (k : String) (v : PyVal) : PyDict :=
  if k ∈ d.map Prod.fst then
    d.map (fun e => if e.1 = k then (k, v) else e)
  else
    d ++ [(k, v)]

/-- Python `{**a, **b}`: start from `a` and assign every entry of `b`
in order (later entries override earlier ones). -/
def dictUpdate (a b : PyDict) : PyDict :=
  b.foldl (fun acc e => dictSet acc e.1 e.2) a

/-! ## Timestamp fields

`parse_date_string` below is the `field_validator(..., mode="before")`
shared by `DebateOverview` (fields `date`, `content_last_updated`) and
`DebateItem` (field `timecode`) in `src/api/models/debates.py`.  The
subsequent parse into a `datetime` is performed by pydantic; we model the
relevant fragment of pydantic's ISO-8601 acceptance (`YYYY-MM-DD` and
`YYYY-MM-DDTHH:MM:SS`) explicitly. -/

structure PyDateTime where
  year : Nat
  month : Nat
  day : Nat
  hour : Nat
  minute : Nat
  second : Nat
deriving DecidableEq, Repr

/-- Numeric value of a digit character. -/
def digitVal (c : Char) : Nat := c.toNat - 48

def twoDigits (a b : Char) : Nat := digitVal a * 10 + digitVal b

def fourDigits (a b c d : Char) : Nat :=
  ((digitVal a * 10 + digitVal b) * 10 + digitVal c) * 10 + digitVal d

/-- Parse `YYYY-MM-DD` from a character list (pydantic date acceptance,
modelled: four digits, hyphen, two digits, hyphen, two digits, with the
month and day in calendar range). -/
def parseDateChars : List Char → Option (Nat × Nat × Nat)
  | [y1, y2, y3, y4, h1, m1, m2, h2, d1, d2] =>
    if h1 = '-' ∧ h2 = '-' ∧ ([y1, y2, y3, y4, m1, m2, d1, d2].all Char.isDigit)
        ∧ 1 ≤ twoDigits m1 m2 ∧ twoDigits m1 m2 ≤ 12
        ∧ 1 ≤ twoDigits d1 d2 ∧ twoDigits d1 d2 ≤ 31 then
      some (fourDigits y1 y2 y3 y4, twoDigits m1 m2, twoDigits d1 d2)
    else
      none
  | _ => none

/-- Parse `HH:MM:SS` from a character list (pydantic time acceptance,
modelled). -/
def parseTimeChars : List Char → Option (Nat × Nat × Nat)
  | [h1, h2, c1, m1, m2, c2, s1, s2] =>
    if c1 = ':' ∧ c2 = ':' ∧ ([h1, h2, m1, m2, s1, s2].all Char.isDigit)
        ∧ twoDigits h1 h2 ≤ 23 ∧ twoDigits m1 m2 ≤ 59 ∧ twoDigits s1 s2 ≤ 59 then
      some (twoDigits h1 h2, twoDigits m1 m2, twoDigits s1 s2)
    else
      none
  | _ => none

/-- Split a character list at the first `'T'` (the ISO-8601 date/time
separator), returning the part before it and, when a `'T'` is present,
the part after it. -/
def splitAtT : List Char → List Char × Option (List Char)
  | [] => ([], none)
  | c :: rest =>
    if c = 'T' then
      ([], some rest)
    else
      let (d, t) := splitAtT rest
      (c :: d, t)

/-- Pydantic's parse of a string into a `datetime` (modelled): a bare
date yields midnight, a date plus `'T'` plus a time yields that instant. -/
def parsePyDateTime (s : String) : Option PyDateTime :=
  match splitAtT s.data with
  | (datePart, none) =>
    (parseDateChars datePart).map fun (y, m, d) => ⟨y, m, d, 0, 0, 0⟩
  | (datePart, some timePart) =>
    match parseDateChars datePart, parseTimeChars timePart with
    | some (y, m, d), some (h, mi, sec) => some ⟨y, m, d, h, mi, sec⟩
    | _, _ => none

/-- Python `value.count("-")`. -/
def hyphenCount (s : String) : Nat := s.data.count '-'

/-- The `parse_date_string` before-validator of `DebateOverview` and
`DebateItem`: `None` passes through; a string of exactly 10 characters
containing two hyphens gets `"T00:00:00"` appended; every other value is
returned unchanged. -/
def parse_date_string (value : PyVal) : PyVal :=
  match value with
  | .pynone => .pynone
  | .str s =>
    if s.length = 10 ∧ hyphenCount s = 2 then .str (s ++ "T00:00:00") else .str s
  | v => v

/-- Pydantic's coercion of a raw value into an optional `datetime`
field (modelled): `None` means absent, a parseable string parses,
anything else is a validation error. -/
def validateDatetimeField (v : PyVal) : Except String (Option PyDateTime) :=
  match v with
  | .pynone => .ok none
  | .str s =>
    match parsePyDateTime s with
    | some dt => .ok (some dt)
    | none => .error "Input should be a valid datetime"
  | _ => .error "Input should be a valid datetime"

/-- Normalization of a timestamp field that carries the
`parse_date_string` widening validator (`DebateOverview.date`,
`DebateOverview.content_last_updated`, `DebateItem.timecode`):
the before-validator runs, then pydantic coerces. -/
def normalizeWidenedDatetimeField (v : PyVal) : Except String (Option PyDateTime) :=
  validateDatetimeField (parse_date_string v)

/-! ## Hansard debate models (`src/api/models/debates.py`)

Validated model instances are embedded as Lean structures; `model_dump`
projections are embedded as `PyDict`s whose values are rendered in JSON
mode (datetimes as ISO strings, enums as their values), matching what
`DebateDocumentMetadata.to_dict` ultimately emits. -/

inductive Source where
  | rollingHansard
  | dailyHansard
  | boundVolume
  | historic
deriving DecidableEq, Repr

def Source.toInt : Source → Int
  | .rollingHansard => 1
  | .dailyHansard => 2
  | .boundVolume => 3
  | .historic => 4

structure DebateOverview where
  id : Int
  ext_id : String
  title : String
  hrs_tag : String
  date : PyDateTime
  location : String
  house : String
  source : Source
  volume_no : Option Int := none
  content_last_updated : Option PyDateTime := none
  debate_type_id : Option Int := none
  section_type : Option Int := none
  next_debate_ext_id : Option String := none
  next_debate_title : Option String := none
  previous_debate_ext_id : Option String := none
  previous_debate_title : Option String := none

structure SectionTreeItem where
  id : Option Int := none
  title : Option String := none
  parent_id : Option Int := none
  sort_order : Option Int := none
  external_id : Option String := none
  hrs_tag : Option String := none
  hansard_section : Option String := none
  timecode : Option PyDateTime := none

structure DebateItem where
  item_type : Option String := none
  item_id : Option Int := none
  member_id : Option Int := none
  attributed_to : Option String := none
  value : Option String := none
  order_in_section : Option Int := none
  timecode : Option PyDateTime := none
  external_id : Option String := none
  hrs_tag : Option String := none
  hansard_section : Option String := none
  uin : Option String := none
  is_reiteration : Option Bool := none

inductive Debate where
  | mk (overview : Option DebateOverview) (navigator : List SectionTreeItem)
      (items : List DebateItem) (child_debates : List Debate)

def Debate.overview : Debate → Option DebateOverview
  | .mk o _ _ _ => o

def Debate.items : Debate → List DebateItem
  | .mk _ _ i _ => i

def Debate.child_debates : Debate → List Debate
  | .mk _ _ _ c => c

def pad2 (n : Nat) : String := if n < 10 then "0" ++ toString n else toString n

def pad4 (n : Nat) : String :=
  if n < 10 then "000" ++ toString n
  else if n < 100 then "00" ++ toString n
  else if n < 1000 then "0" ++ toString n
  else toString n

/-- JSON-mode rendering of a `datetime` (`.isoformat()`). -/
def isoString (dt : PyDateTime) : String :=
  pad4 dt.year ++ "-" ++ pad2 dt.month ++ "-" ++ pad2 dt.day ++ "T" ++
    pad2 dt.hour ++ ":" ++ pad2 dt.minute ++ ":" ++ pad2 dt.second

/-- Render an optional field value for `model_dump` output. -/
def optVal {α : Type} (f : α → PyVal) : Option α → PyVal
  | some a => f a
  | none => .pynone

def pyDateTimeVal (d : PyDateTime) : PyVal := .str (isoString d)

/-- Embedding of `overview.model_dump(exclude={"items", "child_debates"}, by_alias=True)`
(the two excluded names are not fields of `DebateOverview`, so the
exclusion is a no-op on this class): one entry per field, keyed by the
field's declared alias, in declaration order. -/
def DebateOverview.dumpExcl (o : DebateOverview) : PyDict :=
  [("Id", .int o.id),
   ("ExtId", .str o.ext_id),
   ("Title", .str o.title),
   ("HRSTag", .str o.hrs_tag),
   ("Date", pyDateTimeVal o.date),
   ("Location", .str o.location),
   ("House", .str o.house),
   ("Source", .int o.source.toInt),
   ("VolumeNo", optVal .int o.volume_no),
   ("ContentLastUpdated", optVal pyDateTimeVal o.content_last_updated),
   ("DebateTypeId", optVal .int o.debate_type_id),
   ("SectionType", optVal .int o.section_type),
   ("NextDebateExtId", optVal .str o.next_debate_ext_id),
   ("NextDebateTitle", optVal .str o.next_debate_title),
   ("PreviousDebateExtId", optVal .str o.previous_debate_ext_id),
   ("PreviousDebateTitle", optVal .str o.previous_debate_title)]

/-- Embedding of `item.model_dump(exclude={"value"}, by_alias=True)`: every `DebateItem`
field except `value`, keyed by alias, in declaration order. -/
def DebateItem.dumpExclValue (i : DebateItem) : PyDict :=
  [("ItemType", optVal .str i.item_type),
   ("ItemId", optVal .int i.item_id),
   ("MemberId", optVal .int i.member_id),
   ("AttributedTo", optVal .str i.attributed_to),
   ("OrderInSection", optVal .int i.order_in_section),
   ("Timecode", optVal pyDateTimeVal i.timecode),
   ("ExternalId", optVal .str i.external_id),
   ("HRSTag", optVal .str i.hrs_tag),
   ("HansardSection", optVal .str i.hansard_section),
   ("UIN", optVal .str i.uin),
   ("IsReiteration", optVal .bool i.is_reiteration)]

/-! ## Debate flattening (`src/rag.py`) -/

def isPyNone : PyVal → Bool
  | .pynone => true
  | _ => false

/-- The required fields of `DebateDocumentMetadata` (by alias).  Pydantic
collects fields over the reversed MRO of
`DebateDocumentMetadata(DebateOverview, DebateItem)`, so `DebateOverview`'s
declarations override `DebateItem`'s: the shared name `hrs_tag` resolves
to `DebateOverview`'s required `str`, alongside the other required
`DebateOverview` fields (the repo's own `DebateSearchParams` redeclares
exactly these as optional because they are required here).  `value`,
`items` and `child_debates` are redeclared in the combined class with
default `None` and are not required. -/
def debateDocumentMetadataRequiredKeys : List String :=
  ["Id", "ExtId", "Title", "HRSTag", "Date", "Location", "House", "Source"]

/-- Pydantic construction `cls(**merged)` of `DebateDocumentMetadata`
from the merged dump (modelled): raises `ValidationError` — `none` —
when a required field is absent or `None`; otherwise it is
value-preserving on dumps of validated models. -/
def revalidateMetadata (d : PyDict) : Option PyDict :=
  if debateDocumentMetadataRequiredKeys.all
      (fun k => match dictGet k d with
                | some v => !(isPyNone v)
                | none => false) then
    some d
  else
    none

/-- Embedding of `DebateDocumentMetadata.from_overview_and_item`:
`cls(**{**overview.model_dump(exclude={"items","child_debates"}, by_alias=True),
**item.model_dump(exclude={"value"}, by_alias=True)})` — a Python dict
merge where the item's entries are unpacked second and therefore override
the overview's on any shared key, followed by re-validation into the
combined class.  Because the item's dump always carries the `HRSTag` key
and the combined class's `hrs_tag` is a required `str`, the construction
raises `ValidationError` whenever `item.hrs_tag` is `None`. -/
def from_overview_and_item (o : DebateOverview) (i : DebateItem) : Option PyDict :=
  revalidateMetadata (dictUpdate o.dumpExcl i.dumpExclValue)

/-- Embedding of `DebateDocumentMetadata.to_dict`:
`model_dump(mode='json', by_alias=True, exclude_none=True)` — entries whose
value is `None` are omitted. -/
def metadataToDict (d : PyDict) : PyDict :=
  d.filter (fun e => !(isPyNone e.2))

structure Document where
  id : String
  page_content : String
  metadata : PyDict

/-- Python `f"{None}"` renders as the string `"None"`. -/
def pyFStringOptInt : Option Int → String
  | some n => toString n
  | none => "None"

/-- The synthetic document id `f"{debate.overview.id}-{item.item_id}"`. -/
def docId (o : DebateOverview) (i : DebateItem) : String :=
  toString o.id ++ "-" ++ pyFStringOptInt i.item_id

/-- Python truthiness of `item.value`: `None` and `""` are falsy. -/
def truthyStr : Option String → Bool
  | some s => s ≠ ""
  | none => false

/-- Python truthiness of `item.member_id`: `None` and `0` are falsy. -/
def truthyInt : Option Int → Bool
  | some n => n ≠ 0
  | none => false

/-- The inclusion test `if item.value and item.member_id:` in
`DebateLoader.debate_to_documents`. -/
def qualifies (i : DebateItem) : Bool :=
  truthyStr i.value && truthyInt i.member_id

/-- The `Document(...)` constructed for a qualifying item: `none` when
the metadata construction raises (`ValidationError` for an item whose
`hrs_tag` is `None`). -/
def itemDocument (o : DebateOverview) (i : DebateItem) : Option Document :=
  (from_overview_and_item o i).map fun md =>
    { id := docId o i,
      page_content := i.value.getD "",
      metadata := metadataToDict md }

/-- Specification-side form of the document a qualifying item yields when
its metadata construction succeeds (total; agrees with `itemDocument`
exactly on the success domain). -/
def specItemDocument (o : DebateOverview) (i : DebateItem) : Document :=
  { id := docId o i,
    page_content := i.value.getD "",
    metadata := metadataToDict (dictUpdate o.dumpExcl i.dumpExclValue) }

/-- Embedding of `langchain_community.vectorstores.utils.filter_complex_metadata`:
each document keeps only metadata entries whose value is a scalar
(`str`, `bool`, `int`, `float`); documents themselves, their ids,
contents, number and order are untouched. -/
def isSimpleMetadata : PyVal → Bool
  | .str _ => true
  | .bool _ => true
  | .int _ => true
  | _ => false

def filterComplexMetadata (docs : List Document) : List Document :=
  docs.map fun d => { d with metadata := d.metadata.filter (fun e => isSimpleMetadata e.2) }

/-- The `for item in debate.items:` loop of `debate_to_documents`.  When a
qualifying item is reached and the debate has no overview, Python raises
(`debate.overview.id` on `None`); when the item's metadata construction
raises (`hrs_tag=None`), that `ValidationError` propagates too — both
modelled as `none`. -/
def itemsToDocuments (overview : Option DebateOverview) :
    List DebateItem → Option (List Document)
  | [] => some []
  | i :: rest =>
    if qualifies i then
      match overview with
      | some o =>
        (itemDocument o i).bind fun doc =>
          (itemsToDocuments overview rest).map (fun ds => doc :: ds)
      | none => none
    else
      itemsToDocuments overview rest

mutual

/-- Embedding of `DebateLoader.debate_to_documents`: the parent's qualifying items in
order, followed by each child debate's documents recursively, with
`filter_complex_metadata` applied to the collected list before returning. -/
def debate_to_documents : Debate → Option (List Document)
  | .mk overview _nav items children =>
    (itemsToDocuments overview items).bind fun parentDocs =>
      (childDebatesToDocuments children).bind fun childDocs =>
        some (filterComplexMetadata (parentDocs ++ childDocs))

/-- The `for child_debate in debate.child_debates:` loop (`extend`). -/
def childDebatesToDocuments : List Debate → Option (List Document)
  | [] => some []
  | d :: rest =>
    (debate_to_documents d).bind fun ds =>
      (childDebatesToDocuments rest).bind fun rest' =>
        some (ds ++ rest')

end

mutual

/-- Specification-side flattening: one document per qualifying item,
parent items first (in order), then each child debate depth-first. -/
def qualifyingDocs : Debate → List Document
  | .mk overview _nav items children =>
    (match overview with
     | some o => (items.filter qualifies).map (specItemDocument o)
     | none => []) ++ qualifyingDocsList children

def qualifyingDocsList : List Debate → List Document
  | [] => []
  | d :: rest => qualifyingDocs d ++ qualifyingDocsList rest

end

/-! ## Document filter expressions (`WhereDocument` in `src/rag.py`) -/

inductive WhereDocument where
  | mk (contains : Option String) (not_contains : Option String)
      (and_ : Option (List WhereDocument)) (or_ : Option (List WhereDocument))

/-- Computation of `len(non_none)` for
`operators = [self.contains, self.not_contains, self.and_, self.or_]`. -/
def opCount : WhereDocument → Nat
  | .mk c nc a o =>
    (if c.isSome then 1 else 0) + (if nc.isSome then 1 else 0) +
      (if a.isSome then 1 else 0) + (if o.isSome then 1 else 0)

def noOperatorMsg : String := "At least one operator must be specified"

def multipleOperatorsMsg : String := "Only one operator can be used per WhereDocument"

/-- The `model_validator(mode="after")` `validate_single_operator`:
raises `ValueError` (surfaced by the spec as `NoOperatorError` /
`MultipleOperatorsError`) unless exactly one operator is populated. -/
def validate_single_operator (w : WhereDocument) : Except String WhereDocument :=
  if opCount w = 0 then .error noOperatorMsg
  else if opCount w > 1 then .error multipleOperatorsMsg
  else .ok w

mutual

/-- Pydantic construction of a `WhereDocument`: nested child expressions
are themselves validated models (constructed first), then the node's
`validate_single_operator` runs. -/
def constructWhere : WhereDocument → Except String WhereDocument
  | .mk c nc a o =>
    (constructChildren a).bind fun a' =>
      (constructChildren o).bind fun o' =>
        validate_single_operator (.mk c nc a' o')

def constructChildren :
    Option (List WhereDocument) → Except String (Option (List WhereDocument))
  | none => .ok none
  | some l => (constructList l).map some

def constructList : List WhereDocument → Except String (List WhereDocument)
  | [] => .ok []
  | w :: ws => (constructWhere w).bind fun w' => (constructList ws).map (w' :: ·)

end

/-! ## Sentinel normalization (`src/api/models/base.py`)

`BaseAPIModel` declares `str_none_to_none` as a `field_validator("*",
mode="before")`, so every field of every schema deriving `BaseAPIModel`
passes through it before type coercion.  `BaseParams` derives plain
`BaseModel` and declares no such validator, so fields of schemas deriving
`BaseParams` (`InterestsParams`, `MemberSearchParams`) go straight to type
coercion. -/

/-- Embedding of `str_none_to_none`: `return None if value == "None" else value`
(Python `==` between a non-str value and a str is `False`). -/
def str_none_to_none (value : PyVal) : PyVal :=
  match value with
  | .str s => if s = "None" then .pynone else .str s
  | v => v

/-- Normalization pipeline of a field on a schema deriving `BaseAPIModel`:
the sentinel validator runs, then the field's type coercion. -/
def normalizeBaseAPIModelField {α : Type} (coerce : PyVal → Except String α)
    (v : PyVal) : Except String α :=
  coerce (str_none_to_none v)

/-- Normalization pipeline of a field on a schema deriving `BaseParams`
(plain `BaseModel`): type coercion only, no sentinel validator. -/
def normalizeBaseParamsField {α : Type} (coerce : PyVal → Except String α)
    (v : PyVal) : Except String α :=
  coerce v

def digitsToNat : List Char → Option Nat
  | [] => none
  | cs =>
    if cs.all Char.isDigit then
      some (cs.foldl (fun acc c => acc * 10 + digitVal c) 0)
    else
      none

/-- Python/pydantic lax parse of a decimal integer string. -/
def pyParseInt (s : String) : Option Int :=
  match s.data with
  | '-' :: rest => (digitsToNat rest).map (fun n => -(n : Int))
  | cs => (digitsToNat cs).map (fun n => (n : Int))

/-- Pydantic lax coercion into an `int | None` field (modelled):
`None` is absent, ints pass, numeric strings parse, everything else is a
validation error. -/
def coerceOptInt (v : PyVal) : Except String (Option Int) :=
  match v with
  | .pynone => .ok none
  | .int n => .ok (some n)
  | .str s =>
    match pyParseInt s with
    | some n => .ok (some n)
    | none => .error "Input should be a valid integer"
  | _ => .error "Input should be a valid integer"

/-- Normalization of `InterestsParams.member_id` (`int | None`):
`InterestsParams` derives `BaseParams`, so no sentinel validator runs. -/
def interestsMemberIdNormalize (v : PyVal) : Except String (Option Int) :=
  normalizeBaseParamsField coerceOptInt v

/-- Normalization of `DebateItem.member_id` (`int | None`): `DebateItem`
derives `BaseAPIModel`, so the sentinel validator runs first. -/
def debateItemMemberIdNormalize (v : PyVal) : Except String (Option Int) :=
  normalizeBaseAPIModelField coerceOptInt v

/-! ## Paging bounds (`src/api/models/search.py`, `src/api/models/base.py`) -/

/-- Field-constraint validation of `CompanySearchParams`: required `q`,
`items_per_page` with `ge=1, le=100`, `start_index` with `ge=0`. -/
def companySearchParamsValid (q : Option String) (items_per_page start_index : Int) : Bool :=
  q.isSome && decide (1 ≤ items_per_page) && decide (items_per_page ≤ 100) &&
    decide (0 ≤ start_index)

/-- Field-constraint validation of `AdvancedSearchParams`: `size` with
`ge=1, le=5000`, `start_index` with `ge=0` (all other fields optional and
unconstrained). -/
def advancedSearchParamsValid (size start_index : Int) : Bool :=
  decide (1 ≤ size) && decide (size ≤ 5000) && decide (0 ≤ start_index)

/-- Field-constraint validation of `BaseParams` (interests/members
endpoints): `skip` with `ge=0`, `take` with `ge=1, le=20`. -/
def baseParamsValid (skip take : Int) : Bool :=
  decide (0 ≤ skip) && decide (1 ≤ take) && decide (take ≤ 20)

/-! ## Boolean query-parameter serialization
(`src/api/models/interests.py`, `src/api/models/members.py`) -/

def strLower (s : String) : String := ⟨s.data.map Char.toLower⟩

/-- Python `str(value)` on a bool. -/
def pythonStrBool (b : Bool) : String := if b then "True" else "False"

/-- Embedding of `InterestsParams.serialize_expand_child_interests`:
`str(value).lower() if value is not None else None`. -/
def serialize_expand_child_interests (value : Option Bool) : Option String :=
  match value with
  | some b => some (strLower (pythonStrBool b))
  | none => none

inductive InterestsSortOrder where
  | publishingDateDescending
  | categoryAscending

def InterestsSortOrder.toStr : InterestsSortOrder → String
  | .publishingDateDescending => "PublishingDateDescending"
  | .categoryAscending => "CategoryAscending"

structure InterestsParams where
  skip : Int := 0
  take : Int := 20
  member_id : Option Int := none
  category_id : Option Int := none
  published_from : Option (Nat × Nat × Nat) := none
  published_to : Option (Nat × Nat × Nat) := none
  sort_order : Option InterestsSortOrder := none
  expand_child_interests : Option Bool := some true

/-- Embedding of `params.model_dump(by_alias=True, exclude_none=True)` for
`InterestsParams`: keys are the declared aliases in field order,
`None`-valued fields are omitted, and `expand_child_interests` passes
through its `field_serializer` (a `None` result is likewise omitted). -/
def InterestsParams.dump (p : InterestsParams) : PyDict :=
  [("Skip", .int p.skip), ("Take", .int p.take)] ++
    (match p.member_id with | some n => [("MemberId", .int n)] | none => []) ++
    (match p.category_id with | some n => [("CategoryId", .int n)] | none => []) ++
    (match p.published_from with
     | some (y, m, d) => [("PublishedFrom", .date y m d)]
     | none => []) ++
    (match p.published_to with
     | some (y, m, d) => [("PublishedTo", .date y m d)]
     | none => []) ++
    (match p.sort_order with
     | some so => [("SortOrder", .str so.toStr)]
     | none => []) ++
    (match serialize_expand_child_interests p.expand_child_interests with
     | some s => [("ExpandChildInterests", .str s)]
     | none => [])

structure LordsInterestsRegisterParams where
  search_term : Option String := none
  page : Option Int := none
  include_deleted : Bool := false

/-- Embedding of `params.model_dump(by_alias=True, exclude_none=True)` for
`LordsInterestsRegisterParams`: the class declares no field serializer,
so `include_deleted` is emitted as a raw Python boolean. -/
def LordsInterestsRegisterParams.dump (p : LordsInterestsRegisterParams) : PyDict :=
  (match p.search_term with | some s => [("searchTerm", .str s)] | none => []) ++
    (match p.page with | some n => [("page", .int n)] | none => []) ++
    [("includeDeleted", .bool p.include_deleted)]

/-! ## Upstream client retry (`src/api/client.py`)

`_make_request` is decorated with tenacity
`retry(stop=stop_after_attempt(3),
       retry=retry_if_exception_type((httpx.TimeoutException, httpx.ConnectError)),
       wait=wait_exponential(multiplier=1, min=2, max=8), ...)`.
The transport is modelled as a function from the (1-based) attempt number
to that attempt's outcome. -/

inductive HttpBody where
  | json (v : PyVal)
  | text (s : String)

inductive HttpOutcome where
  | response (status : Nat) (body : HttpBody)
  | timeout
  | connectError

inductive ErrorDetail where
  | json (v : PyVal)
  | text (s : String)

inductive ClientError where
  | timeout
  | connectError
  | httpStatusError (status : Nat) (detail : ErrorDetail)
  | jsonDecodeError
  | retryError (last : ClientError)

/-- Computation of `error_detail`: `e.response.json()` when the body parses as JSON,
`e.response.text` otherwise. -/
def errorDetail : HttpBody → ErrorDetail
  | .json v => .json v
  | .text s => .text s

/-- One attempt of the `_make_request` body: the GET outcome, then
`response.raise_for_status()` (raises `HTTPStatusError` outside 2xx,
carrying the status and parsed error body), then `response.json()`. -/
def singleRequest (o : HttpOutcome) : Except ClientError PyVal :=
  match o with
  | .timeout => .error .timeout
  | .connectError => .error .connectError
  | .response status body =>
    if 200 ≤ status ∧ status ≤ 299 then
      match body with
      | .json v => .ok v
      | .text _ => .error .jsonDecodeError
    else
      .error (.httpStatusError status (errorDetail body))

/-- Embedding of `retry_if_exception_type((httpx.TimeoutException, httpx.ConnectError))`. -/
def isRetryable : ClientError → Bool
  | .timeout => true
  | .connectError => true
  | _ => false

/-- Embedding of `wait_exponential(multiplier=1, min=2, max=8)` evaluated after the
n-th failed attempt: `max(min_, min(multiplier * 2**n, max_))`. -/
def waitSeconds (attemptNumber : Nat) : Nat :=
  max 2 (min (2 ^ attemptNumber) 8)

structure RetryResult where
  result : Except ClientError PyVal
  attempts : Nat
  sleeps : List Nat

def isRetryableOutcome : HttpOutcome → Bool
  | .timeout => true
  | .connectError => true
  | _ => false

/-- The exception a retryable outcome raises (`timeout` / `connectError`;
the `response` case never occurs in retryable positions). -/
def retryableOutcomeError : HttpOutcome → ClientError
  | .connectError => .connectError
  | _ => .timeout

/-- The tenacity retry loop with `stop_after_attempt(3)`: run an attempt;
on a retryable exception sleep and retry while attempts remain, raising
`RetryError` once the third attempt fails; re-raise any non-retryable
exception immediately. -/
def runRetry (transport : Nat → HttpOutcome) :
    Nat → Nat → List Nat → RetryResult
  | attemptNo, 0, sleeps => ⟨.error .timeout, attemptNo - 1, sleeps⟩
  | attemptNo, remaining + 1, sleeps =>
    match singleRequest (transport attemptNo) with
    | .ok v => ⟨.ok v, attemptNo, sleeps⟩
    | .error e =>
      if isRetryable e then
        if remaining = 0 then
          ⟨.error (.retryError e), attemptNo, sleeps⟩
        else
          runRetry transport (attemptNo + 1) remaining (sleeps ++ [waitSeconds attemptNo])
      else
        ⟨.error e, attemptNo, sleeps⟩

/-- Embedding of `_make_request` under its retry decorator: up to 3 attempts. -/
def make_request (transport : Nat → HttpOutcome) : RetryResult :=
  runRetry transport 1 3 []


/-! ## Concrete sample inputs -/

/-- The inclusion rule as the specification words it ("non-empty text and
an attributed member id **present**"), for comparison against the
source's truthiness test `qualifies`. -/
def claimQualifies (i : DebateItem) : Bool :=
  truthyStr i.value && i.member_id.isSome

def exOverview : DebateOverview :=
  { id := 42, ext_id := "E1", title := "Example Debate",
    hrs_tag := "hs_2cDebatedMotion", date := ⟨2024, 3, 5, 0, 0, 0⟩,
    location := "Commons Chamber", house := "Commons",
    source := .rollingHansard }

def exChildOverview : DebateOverview :=
  { id := 43, ext_id := "E2", title := "Child Debate",
    hrs_tag := "hs_8Question", date := ⟨2024, 3, 5, 9, 30, 0⟩,
    location := "Commons Chamber", house := "Commons",
    source := .rollingHansard }

def exItemQualifying : DebateItem :=
  { item_id := some 7, member_id := some 1001, value := some "I beg to move.",
    hrs_tag := some "hs_Para" }

def exItemNoMember : DebateItem :=
  { item_id := some 8, value := some "Question put." }

def exChildItem : DebateItem :=
  { item_id := some 9, member_id := some 1002, value := some "On a point of order.",
    hrs_tag := some "hs_Para" }

def exDebate : Debate :=
  .mk (some exOverview) [] [exItemQualifying, exItemNoMember]
    [.mk (some exChildOverview) [] [exChildItem] []]

def exFlattened : List Document := (debate_to_documents exDebate).getD []

def exMergedMetadata : PyDict :=
  (from_overview_and_item exOverview exItemQualifying).getD []

/-- An item with non-empty text and a member id that is present but `0`. -/
def cxItemMemberZero : DebateItem :=
  { item_id := some 1, member_id := some 0, value := some "Hello" }

def cxDebateMemberZero : Debate :=
  .mk (some exOverview) [] [cxItemMemberZero] []

def whereAndExample : WhereDocument :=
  .mk none none
    (some [.mk (some "immigration") none none none,
           .mk (some "policy") none none none]) none

/-- A transport that times out on the first two attempts and answers
HTTP 200 with a JSON body on the third. -/
def exTransportRecovers : Nat → HttpOutcome :=
  fun n => if n ≤ 2 then .timeout else .response 200 (.json (.str "ok"))

/-- A transport that times out on every attempt. -/
def exTransportAlwaysTimeout : Nat → HttpOutcome :=
  fun _ => .timeout

/-- A transport that answers HTTP 400 with a JSON error body on the
first attempt. -/
def exTransportBadRequest : Nat → HttpOutcome :=
  fun _ => .response 400 (.json (.dict [("error", .str "Bad request")]))

/-! ## Helper lemmas -/

theorem dictGet_append (a b : PyDict) (k : String) :
    dictGet k (a ++ b) = (dictGet k a).or (dictGet k b) := by
  induction a with
  | nil => simp [dictGet]
  | cons e rest ih =>
    by_cases he : e.1 = k
    · simp [dictGet, he]
    · simp [dictGet, he, ih]

theorem dictGet_eq_none_of_not_mem_keys (d : PyDict) (k : String)
    (h : ¬ k ∈ d.map Prod.fst) : dictGet k d = none := by
  induction d with
  | nil => rfl
  | cons e rest ih =>
    simp only [List.map_cons, List.mem_cons] at h
    push_neg at h
    have : ¬ e.1 = k := fun hh => h.1 hh.symm
    simp [dictGet, this, ih h.2]

theorem dictGet_map_set (d : PyDict) (k k' : String) (v : PyVal) :
    dictGet k' (d.map (fun e => if e.1 = k then (k, v) else e)) =
      if k' = k then (dictGet k d).map (fun _ => v) else dictGet k' d := by
  induction d with
  | nil =>
    by_cases hk' : k' = k <;> simp [dictGet, hk']
  | cons e rest ih =>
    by_cases he : e.1 = k
    · by_cases hk' : k' = k
      · subst hk'
        simp [dictGet, he]
      · have hkk' : ¬ k = k' := fun h => hk' h.symm
        simp only [List.map_cons, he, if_true]
        simp only [dictGet, hkk', if_false, he, if_true]
        rw [ih]
        simp [hk']
    · by_cases hk'e : e.1 = k'
      · have hk'k : ¬ k' = k := fun h => he (hk'e ▸ h ▸ rfl)
        simp only [List.map_cons, he, if_false]
        simp [dictGet, hk'e, hk'k]
      · simp only [List.map_cons, he, if_false]
        simp only [dictGet, hk'e, if_false, he]
        exact ih

theorem isSome_dictGet_of_mem (d : PyDict) (k : String)
    (h : k ∈ d.map Prod.fst) : (dictGet k d).isSome := by
  induction d with
  | nil => simp at h
  | cons e rest ih =>
    by_cases he : e.1 = k
    · simp [dictGet, he]
    · simp only [List.map_cons, List.mem_cons] at h
      rcases h with h1 | h2
      · exact absurd h1.symm he
      · simp only [dictGet, he, if_false]
        exact ih h2

theorem dictGet_dictSet (d : PyDict) (k k' : String) (v : PyVal) :
    dictGet k' (dictSet d k v) = if k' = k then some v else dictGet k' d := by
  unfold dictSet
  by_cases hmem : k ∈ d.map Prod.fst
  · rw [if_pos hmem, dictGet_map_set]
    by_cases hk' : k' = k
    · rw [if_pos hk', if_pos hk']
      rcases Option.isSome_iff_exists.mp (isSome_dictGet_of_mem d k hmem) with ⟨w, hw⟩
      rw [hw]
      rfl
    · rw [if_neg hk', if_neg hk']
  · rw [if_neg hmem, dictGet_append]
    have hnone : dictGet k d = none := dictGet_eq_none_of_not_mem_keys d k hmem
    by_cases hk' : k' = k
    · subst hk'
      rw [hnone, if_pos rfl]
      simp [dictGet, Option.or]
    · rw [if_neg hk']
      cases hd : dictGet k' d with
      | some v' => simp [Option.or]
      | none =>
        have : ¬ k = k' := fun h => hk' h.symm
        simp [dictGet, this, Option.or]

/-- Characterization of Python dict merge `{**a, **b}` by lookup: the
value at a key is `b`'s if `b` defines the key, otherwise `a`'s
(requires `b`'s keys to be duplicate-free, which holds for all
`model_dump` outputs). -/
theorem dictGet_dictUpdate (a b : PyDict) (hb : (b.map Prod.fst).Nodup) (k : String) :
    dictGet k (dictUpdate a b) = (dictGet k b).or (dictGet k a) := by
  induction b generalizing a with
  | nil => simp [dictUpdate, dictGet]
  | cons e rest ih =>
    simp only [List.map_cons, List.nodup_cons] at hb
    have step : dictUpdate a (e :: rest) = dictUpdate (dictSet a e.1 e.2) rest := by
      simp [dictUpdate, List.foldl_cons]
    rw [step, ih (dictSet a e.1 e.2) hb.2, dictGet_dictSet]
    by_cases hk : k = e.1
    · have hnone : dictGet k rest = none := by
        apply dictGet_eq_none_of_not_mem_keys
        intro hin
        exact hb.1 (hk ▸ hin)
      have hek : e.1 = k := hk.symm
      rw [if_pos hk, hnone]
      simp [dictGet, hek, Option.or]
    · have hek : ¬ e.1 = k := fun h => hk h.symm
      rw [if_neg hk]
      simp [dictGet, hek]

theorem splitAtT_of_no_T (cs : List Char) (h : ∀ c ∈ cs, c ≠ 'T') :
    splitAtT cs = (cs, none) := by
  induction cs with
  | nil => rfl
  | cons c rest ih =>
    have hc : ¬ c = 'T' := h c (List.mem_cons_self c rest)
    have hrest := ih (fun c' hc' => h c' (List.mem_cons_of_mem c hc'))
    simp [splitAtT, hc, hrest]

theorem splitAtT_append_T (cs rest : List Char) (h : ∀ c ∈ cs, c ≠ 'T') :
    splitAtT (cs ++ 'T' :: rest) = (cs, some rest) := by
  induction cs with
  | nil => simp [splitAtT]
  | cons c cs' ih =>
    have hc : ¬ c = 'T' := h c (List.mem_cons_self c cs')
    have hrest := ih (fun c' hc' => h c' (List.mem_cons_of_mem c hc'))
    simp [splitAtT, hc, hrest]

theorem itemDumpKeysNodup (i : DebateItem) :
    ((i.dumpExclValue).map Prod.fst).Nodup := by
  have hkeys : (i.dumpExclValue).map Prod.fst =
      ["ItemType", "ItemId", "MemberId", "AttributedTo", "OrderInSection",
       "Timecode", "ExternalId", "HRSTag", "HansardSection", "UIN",
       "IsReiteration"] := by
    simp [DebateItem.dumpExclValue]
  rw [hkeys]
  decide

theorem revalidateMetadata_some_eq (d md : PyDict)
    (h : revalidateMetadata d = some md) : md = d := by
  unfold revalidateMetadata at h
  by_cases hc : debateDocumentMetadataRequiredKeys.all
      (fun k => match dictGet k d with
                | some v => !(isPyNone v)
                | none => false) = true
  · rw [if_pos hc] at h
    injection h with h'
    exact h'.symm
  · rw [if_neg hc] at h
    exact Option.noConfusion h

theorem revalidateMetadata_of_required (d : PyDict)
    (hc : debateDocumentMetadataRequiredKeys.all
        (fun k => match dictGet k d with
                  | some v => !(isPyNone v)
                  | none => false) = true) :
    revalidateMetadata d = some d := by
  unfold revalidateMetadata
  rw [if_pos hc]

theorem from_overview_and_item_some_eq (o : DebateOverview) (i : DebateItem)
    (md : PyDict) (h : from_overview_and_item o i = some md) :
    md = dictUpdate o.dumpExcl i.dumpExclValue :=
  revalidateMetadata_some_eq _ md h

theorem from_overview_and_item_of_hrs_tag (o : DebateOverview) (i : DebateItem)
    (t : String) (h : i.hrs_tag = some t) :
    from_overview_and_item o i = some (dictUpdate o.dumpExcl i.dumpExclValue) := by
  apply revalidateMetadata_of_required
  have hmerge := dictGet_dictUpdate o.dumpExcl i.dumpExclValue (itemDumpKeysNodup i)
  simp only [debateDocumentMetadataRequiredKeys, List.all_cons, List.all_nil, hmerge]
  simp [DebateItem.dumpExclValue, DebateOverview.dumpExcl, dictGet, Option.or,
    isPyNone, optVal, h, pyDateTimeVal]

theorem itemDocument_some_eq (o : DebateOverview) (i : DebateItem)
    (doc : Document) (h : itemDocument o i = some doc) :
    doc = specItemDocument o i := by
  unfold itemDocument at h
  rcases hf : from_overview_and_item o i with _ | md
  · rw [hf] at h
    exact Option.noConfusion h
  · rw [hf] at h
    simp only [Option.map_some'] at h
    have h' := Option.some.inj h
    rw [← h']
    unfold specItemDocument
    rw [from_overview_and_item_some_eq o i md hf]

theorem itemDocument_of_hrs_tag (o : DebateOverview) (i : DebateItem)
    (t : String) (h : i.hrs_tag = some t) :
    itemDocument o i = some (specItemDocument o i) := by
  unfold itemDocument specItemDocument
  rw [from_overview_and_item_of_hrs_tag o i t h]
  rfl

theorem itemsToDocuments_sound (ov : Option DebateOverview) :
    ∀ (items : List DebateItem) (ds : List Document),
      itemsToDocuments ov items = some ds →
      ds = (match ov with
            | some o => (items.filter qualifies).map (specItemDocument o)
            | none => []) := by
  intro items
  induction items with
  | nil =>
    intro ds h
    simp only [itemsToDocuments] at h
    cases ov <;> simp_all
  | cons i rest ih =>
    intro ds h
    simp only [itemsToDocuments] at h
    by_cases hq : qualifies i
    · rw [if_pos hq] at h
      cases ov with
      | none => simp at h
      | some o =>
        replace h : (itemDocument o i).bind
            (fun doc => (itemsToDocuments (some o) rest).map (fun ds => doc :: ds)) =
            some ds := h
        rcases hdoc : itemDocument o i with _ | doc
        · rw [hdoc] at h
          simp at h
        · rw [hdoc] at h
          simp only [Option.bind] at h
          rcases hrest : itemsToDocuments (some o) rest with _ | ds'
          · rw [hrest] at h
            simp at h
          · rw [hrest] at h
            simp only [Option.map_some'] at h
            have hds := ih ds' hrest
            simp only at hds
            subst hds
            have h2 := Option.some.inj h
            rw [← h2, itemDocument_some_eq o i doc hdoc]
            simp [List.filter_cons, hq]
    · rw [if_neg hq] at h
      have := ih ds h
      cases ov <;> simp_all [List.filter_cons, hq]

theorem filterComplexMetadata_append (a b : List Document) :
    filterComplexMetadata (a ++ b) = filterComplexMetadata a ++ filterComplexMetadata b := by
  simp [filterComplexMetadata]

theorem filter_self_filter {α : Type} (g : α → Bool) (l : List α) :
    (l.filter g).filter g = l.filter g := by
  induction l with
  | nil => rfl
  | cons e rest ih =>
    by_cases hg : g e
    · simp [List.filter_cons, hg, ih]
    · simp [List.filter_cons, hg, ih]

theorem filterComplexMetadata_idem (l : List Document) :
    filterComplexMetadata (filterComplexMetadata l) = filterComplexMetadata l := by
  simp [filterComplexMetadata, Function.comp, filter_self_filter]

mutual

theorem debate_to_documents_sound :
    ∀ (d : Debate) (docs : List Document), debate_to_documents d = some docs →
      docs = filterComplexMetadata (qualifyingDocs d)
  | .mk ov nav items children, docs, h => by
    simp only [debate_to_documents] at h
    rcases hp : itemsToDocuments ov items with _ | parent
    · rw [hp] at h
      simp at h
    · rcases hc : childDebatesToDocuments children with _ | child
      · rw [hp, hc] at h
        simp at h
      · rw [hp, hc] at h
        simp only [Option.bind] at h
        injection h with h2
        have e1 := itemsToDocuments_sound ov items parent hp
        have e2 := childDebatesToDocuments_sound children child hc
        rw [← h2, e1, e2]
        simp only [qualifyingDocs, filterComplexMetadata_append, filterComplexMetadata_idem]

theorem childDebatesToDocuments_sound :
    ∀ (ds : List Debate) (docs : List Document), childDebatesToDocuments ds = some docs →
      docs = filterComplexMetadata (qualifyingDocsList ds)
  | [], docs, h => by
    simp only [childDebatesToDocuments, Option.some.injEq] at h
    rw [← h]
    simp [qualifyingDocsList, filterComplexMetadata]
  | d :: rest, docs, h => by
    simp only [childDebatesToDocuments] at h
    rcases hd : debate_to_documents d with _ | a
    · rw [hd] at h
      simp at h
    · rcases hr : childDebatesToDocuments rest with _ | b
      · rw [hd, hr] at h
        simp at h
      · rw [hd, hr] at h
        simp only [Option.bind] at h
        injection h with h2
        have e1 := debate_to_documents_sound d a hd
        have e2 := childDebatesToDocuments_sound rest b hr
        rw [← h2, e1, e2]
        simp only [qualifyingDocsList, filterComplexMetadata_append]

end

theorem option_eq_some_getD {α : Type} (o : Option α) (d : α) (h : o.isSome) :
    o = some (o.getD d) := by
  cases o with
  | none => simp at h
  | some v => rfl

theorem constructList_ok (cs : List WhereDocument)
    (h : ∀ c ∈ cs, constructWhere c = .ok c) : constructList cs = .ok cs := by
  induction cs with
  | nil => rfl
  | cons c rest ih =>
    have hc := h c (List.mem_cons_self c rest)
    have hrest := ih (fun c' hc' => h c' (List.mem_cons_of_mem c hc'))
    simp [constructList, hc, hrest, Except.bind, Except.map]

/-! ## Claims -/

/-- C2: a `WhereDocument` node validates iff exactly one of the four
operators is populated — zero populated operators fails with the
no-operator error, more than one fails with the multiple-operators
error, exactly one succeeds — and an `and` node whose child expressions
are each independently valid validates successfully. -/
theorem where_document_single_operator_validation (w : WhereDocument) :
    (opCount w = 0 → validate_single_operator w = .error noOperatorMsg) ∧
    (opCount w > 1 → validate_single_operator w = .error multipleOperatorsMsg) ∧
    (opCount w = 1 → validate_single_operator w = .ok w) ∧
    (∀ (cs : List WhereDocument), (∀ c ∈ cs, constructWhere c = .ok c) →
      constructWhere (.mk none none (some cs) none) =
        .ok (.mk none none (some cs) none)) := by
  refine ⟨?_, ?_, ?_, ?_⟩
  · intro h
    simp [validate_single_operator, h]
  · intro h
    have h0 : ¬ opCount w = 0 := by omega
    simp [validate_single_operator, h0, h]
  · intro h
    simp [validate_single_operator, h]
  · intro cs h
    have hl := constructList_ok cs h
    simp [constructWhere, constructChildren, hl, Except.bind, Except.map,
      validate_single_operator, opCount]

theorem where_document_single_operator_validation_witness :
    validate_single_operator (WhereDocument.mk none none none none) =
        .error noOperatorMsg ∧
    validate_single_operator
        (WhereDocument.mk (some "immigration") (some "question") none none) =
        .error multipleOperatorsMsg ∧
    validate_single_operator (WhereDocument.mk (some "immigration") none none none) =
        .ok (WhereDocument.mk (some "immigration") none none none) ∧
    constructWhere whereAndExample = .ok whereAndExample := by
  refine ⟨?_, ?_, ?_, ?_⟩
  · exact (where_document_single_operator_validation _).1 (by rfl)
  · exact (where_document_single_operator_validation _).2.1 (by decide)
  · exact (where_document_single_operator_validation _).2.2.1 (by rfl)
  · apply (where_document_single_operator_validation whereAndExample).2.2.2
    intro c hc
    rcases List.mem_cons.mp hc with h1 | hc2
    · rw [h1]
      simp [constructWhere, constructChildren, validate_single_operator, opCount,
        Except.bind]
    · rcases List.mem_cons.mp hc2 with h2 | h3
      · rw [h2]
        simp [constructWhere, constructChildren, validate_single_operator, opCount,
          Except.bind]
      · simp at h3

/-- C3 counterexample: `InterestsParams` derives `BaseParams` (plain
`BaseModel`), which declares no `str_none_to_none` validator, so its
`member_id` field given the literal string `"None"` is NOT coerced to an
absent value — it flows into integer coercion and fails — contradicting
"for every field of every schema". -/
theorem sentinel_normalization_counterexample :
    interestsMemberIdNormalize (.str "None") =
        .error "Input should be a valid integer" ∧
    interestsMemberIdNormalize (.str "None") ≠ .ok none := by
  refine ⟨rfl, ?_⟩
  intro h
  exact Except.noConfusion h

/-- C3 (amended): for every field of every schema deriving
`BaseAPIModel`, an input value equal to the literal string `"None"` is
coerced to an absent value before type coercion regardless of the
field's declared type, and every other value passes through unchanged;
schemas deriving `BaseParams` do not apply this normalization. -/
theorem sentinel_normalization_amended :
    (∀ (α : Type) (coerce : PyVal → Except String α),
        normalizeBaseAPIModelField coerce (.str "None") = coerce .pynone) ∧
    (∀ (α : Type) (coerce : PyVal → Except String α) (v : PyVal),
        v ≠ .str "None" → normalizeBaseAPIModelField coerce v = coerce v) ∧
    debateItemMemberIdNormalize (.str "None") = .ok none := by
  refine ⟨?_, ?_, rfl⟩
  · intro α coerce
    rfl
  · intro α coerce v hv
    have : str_none_to_none v = v := by
      cases v with
      | str s =>
        have hs : ¬ s = "None" := fun h => hv (by rw [h])
        simp [str_none_to_none, hs]
      | _ => rfl
    simp [normalizeBaseAPIModelField, this]

theorem sentinel_normalization_amended_witness :
    normalizeBaseAPIModelField coerceOptInt (.str "17") = coerceOptInt (.str "17") :=
  sentinel_normalization_amended.2.1 (Option Int) coerceOptInt (.str "17")
    (by intro h; injection h with h'; exact absurd h' (by decide))

/-- C8: paging parameters are validated against their declared bounds —
items-per-page 101 fails and 100 passes for simple company search,
size 5001 fails and 5000 passes for advanced search, and any accepted
`BaseParams` has take in [1,20] and skip ≥ 0. -/
theorem paging_bounds_validation :
    companySearchParamsValid (some "Tesla") 101 0 = false ∧
    companySearchParamsValid (some "Tesla") 100 0 = true ∧
    advancedSearchParamsValid 5001 0 = false ∧
    advancedSearchParamsValid 5000 0 = true ∧
    (∀ skip take : Int, baseParamsValid skip take = true →
        0 ≤ skip ∧ 1 ≤ take ∧ take ≤ 20) := by
  refine ⟨by decide, by decide, by decide, by decide, ?_⟩
  intro skip take h
  simp only [baseParamsValid, Bool.and_eq_true, decide_eq_true_eq] at h
  exact ⟨h.1.1, h.1.2, h.2⟩

theorem paging_bounds_validation_witness :
    (0 : Int) ≤ 0 ∧ (1 : Int) ≤ 20 ∧ (20 : Int) ≤ 20 :=
  paging_bounds_validation.2.2.2.2 0 20 (by decide)

/-- C9 counterexample: `LordsInterestsRegisterParams` declares no field
serializer, so serializing it emits `includeDeleted` as a raw Python
boolean, not the lowercase string `"false"` the claim asserts for every
serialized boolean query parameter. -/
theorem boolean_serialization_counterexample :
    dictGet "includeDeleted" (LordsInterestsRegisterParams.dump {}) =
        some (.bool false) ∧
    some (PyVal.bool false) ≠ some (PyVal.str "false") := by
  refine ⟨rfl, ?_⟩
  intro h
  injection h with h'
  exact PyVal.noConfusion h'

/-- C9 (amended): the boolean parameter that carries an explicit field
serializer (`expand_child_interests`) serializes to the lowercase
strings `"true"`/`"false"` and an absent (`None`) value serializes to
absent; `include_deleted`, which has no serializer, is emitted by the
schema layer as a raw boolean value. -/
theorem boolean_serialization_amended :
    (∀ b : Bool, serialize_expand_child_interests (some b) =
        some (if b then "true" else "false")) ∧
    serialize_expand_child_interests none = none ∧
    (∀ b : Bool,
        dictGet "ExpandChildInterests"
            (InterestsParams.dump { expand_child_interests := some b }) =
          (serialize_expand_child_interests (some b)).map PyVal.str) ∧
    dictGet "ExpandChildInterests"
        (InterestsParams.dump { expand_child_interests := none }) = none ∧
    (∀ b : Bool,
        dictGet "includeDeleted"
            (LordsInterestsRegisterParams.dump { include_deleted := b }) =
          some (.bool b)) := by
  refine ⟨?_, rfl, ?_, ?_, ?_⟩
  · intro b
    cases b <;> decide
  · intro b
    simp [InterestsParams.dump, dictGet, serialize_expand_child_interests]
  · simp [InterestsParams.dump, serialize_expand_child_interests, dictGet]
  · intro b
    simp [LordsInterestsRegisterParams.dump, dictGet]

/-- C1 counterexample: an item with non-empty text and a PRESENT member
id (`member_id = 0`) satisfies the claim's inclusion rule, yet the code's
truthiness test excludes it — flattening this one-item debate produces
zero documents where the claim requires exactly one. -/
theorem debate_flattening_counterexample :
    claimQualifies cxItemMemberZero = true ∧
    cxItemMemberZero.member_id = some 0 ∧
    debate_to_documents cxDebateMemberZero = some [] := by
  refine ⟨by simp [claimQualifies, cxItemMemberZero, truthyStr], rfl, ?_⟩
  simp [debate_to_documents, childDebatesToDocuments, itemsToDocuments,
    cxDebateMemberZero, cxItemMemberZero, qualifies, truthyStr, truthyInt,
    filterComplexMetadata]

/-- C1 (amended): whenever flattening succeeds, it produces exactly one
document per debate item whose value is non-empty text and whose member
id is present AND non-zero (Python truthiness), skipping all other
items, with the parent debate's qualifying items first in original
order followed by each child debate's results depth-first in child
order (`qualifyingDocs`), all under the store's scalar-metadata
restriction (`filterComplexMetadata`).  Flattening raises — the `none`
case of the hypothesis — when a qualifying item sits in a debate with no
overview, or has `hrs_tag = None` (the combined metadata class requires
it). -/
theorem debate_flattening_characterization (d : Debate) (docs : List Document)
    (h : debate_to_documents d = some docs) :
    docs = filterComplexMetadata (qualifyingDocs d) :=
  debate_to_documents_sound d docs h

theorem debate_flattening_characterization_witness :
    exFlattened = filterComplexMetadata (qualifyingDocs exDebate) :=
  debate_flattening_characterization exDebate exFlattened
    (option_eq_some_getD _ [] (by
      have hq1 : qualifies exItemQualifying = true := by
        simp [qualifies, exItemQualifying, truthyStr, truthyInt]
      have hq2 : qualifies exItemNoMember = false := by
        simp [qualifies, exItemNoMember, truthyStr, truthyInt]
      have hq3 : qualifies exChildItem = true := by
        simp [qualifies, exChildItem, truthyStr, truthyInt]
      have hd1 : itemDocument exOverview exItemQualifying =
          some (specItemDocument exOverview exItemQualifying) :=
        itemDocument_of_hrs_tag _ _ "hs_Para" rfl
      have hd3 : itemDocument exChildOverview exChildItem =
          some (specItemDocument exChildOverview exChildItem) :=
        itemDocument_of_hrs_tag _ _ "hs_Para" rfl
      simp [debate_to_documents, childDebatesToDocuments, itemsToDocuments,
        exDebate, hq1, hq2, hq3, hd1, hd3]))

/-- C10: the inclusion check tests Python truthiness rather than
presence, so an item whose `member_id` equals 0 — or whose `value` is the
empty string — does not qualify and is skipped by flattening. -/
theorem member_id_zero_excluded (ov : Option DebateOverview)
    (nav : List SectionTreeItem) (i : DebateItem) (rest : List DebateItem)
    (children : List Debate)
    (h : i.member_id = some 0 ∨ i.value = some "") :
    qualifies i = false ∧
    debate_to_documents (.mk ov nav (i :: rest) children) =
      debate_to_documents (.mk ov nav rest children) := by
  have hq : qualifies i = false := by
    rcases h with h | h <;> simp [qualifies, truthyStr, truthyInt, h]
  refine ⟨hq, ?_⟩
  simp [debate_to_documents, itemsToDocuments, hq]

theorem member_id_zero_excluded_witness :
    qualifies cxItemMemberZero = false ∧
    debate_to_documents (.mk (some exOverview) [] [cxItemMemberZero] []) =
      debate_to_documents (.mk (some exOverview) [] [] []) :=
  member_id_zero_excluded (some exOverview) [] cxItemMemberZero [] []
    (Or.inl rfl)

/-- C7: whenever metadata construction for an overview/item pair
succeeds, the produced merged metadata is exactly the Python dict merge
of the overview's dump (without `items`/`child_debates`) with the item's
dump (without `value`); on every key defined by both dumps the item's
value wins — in particular on `HRSTag`, the one name the two models
share.  (When the item's `hrs_tag` is `None`, construction raises
`ValidationError` and no metadata is produced.) -/
theorem metadata_merge_item_wins (o : DebateOverview) (i : DebateItem)
    (md : PyDict) (h : from_overview_and_item o i = some md) (k : String) :
    dictGet k md = (dictGet k i.dumpExclValue).or (dictGet k o.dumpExcl) ∧
    dictGet "HRSTag" md = some (optVal .str i.hrs_tag) := by
  have hmd := from_overview_and_item_some_eq o i md h
  rw [hmd]
  refine ⟨dictGet_dictUpdate _ _ (itemDumpKeysNodup i) k, ?_⟩
  rw [dictGet_dictUpdate _ _ (itemDumpKeysNodup i) "HRSTag"]
  simp [DebateItem.dumpExclValue, dictGet, Option.or]

theorem metadata_merge_item_wins_witness :
    dictGet "HRSTag" exMergedMetadata =
      some (optVal .str exItemQualifying.hrs_tag) :=
  (metadata_merge_item_wins exOverview exItemQualifying exMergedMetadata
    (option_eq_some_getD _ [] (by
      rw [from_overview_and_item_of_hrs_tag exOverview exItemQualifying
        "hs_Para" rfl]
      rfl)) "HRSTag").2

/-- C4: a timestamp field given a date-only string (exactly 10
characters, two hyphens) normalizes to the same value as the same date
with `"T00:00:00"` appended — via the widening validator where one is
declared, and via the datetime parse itself for fields without the
validator (section timecodes) — while a string that is not 10 characters
long (every full ISO timestamp) is left unmodified by the validator. -/
theorem date_widening_normalization :
    (∀ s : String, s.length = 10 → hyphenCount s = 2 →
        parse_date_string (.str s) = .str (s ++ "T00:00:00") ∧
        normalizeWidenedDatetimeField (.str s) =
          normalizeWidenedDatetimeField (.str (s ++ "T00:00:00"))) ∧
    (∀ s : String, s.length ≠ 10 → parse_date_string (.str s) = .str s) ∧
    (∀ (s : String) (r : Nat × Nat × Nat), parseDateChars s.data = some r →
        (∀ c ∈ s.data, c ≠ 'T') →
        validateDatetimeField (.str s) =
          validateDatetimeField (.str (s ++ "T00:00:00"))) := by
  refine ⟨?_, ?_, ?_⟩
  · intro s h10 hc
    have h1 : parse_date_string (.str s) = .str (s ++ "T00:00:00") := by
      simp [parse_date_string, h10, hc]
    have hlen : (s ++ "T00:00:00").length = 19 := by
      rw [String.length_append, h10]
      decide
    have h2 : parse_date_string (.str (s ++ "T00:00:00")) = .str (s ++ "T00:00:00") := by
      simp [parse_date_string, hlen]
    exact ⟨h1, by simp [normalizeWidenedDatetimeField, h1, h2]⟩
  · intro s h
    simp [parse_date_string, h]
  · intro s r hparse hT
    rcases r with ⟨y, m, d⟩
    have hsplit1 : splitAtT s.data = (s.data, none) := splitAtT_of_no_T s.data hT
    have hdata : (s ++ "T00:00:00").data = s.data ++ ('T' :: "00:00:00".data) := by
      rw [String.data_append]
    have hsplit2 : splitAtT ((s ++ "T00:00:00").data) = (s.data, some ("00:00:00".data)) := by
      rw [hdata]
      exact splitAtT_append_T s.data _ hT
    have htime : parseTimeChars "00:00:00".data = some (0, 0, 0) := by decide
    have hp1 : parsePyDateTime s = some ⟨y, m, d, 0, 0, 0⟩ := by
      unfold parsePyDateTime
      rw [hsplit1]
      simp [hparse]
    have hp2 : parsePyDateTime (s ++ "T00:00:00") = some ⟨y, m, d, 0, 0, 0⟩ := by
      unfold parsePyDateTime
      rw [hsplit2]
      simp [hparse, htime]
    simp [validateDatetimeField, hp1, hp2]

theorem date_widening_normalization_witness :
    parse_date_string (.str "2024-03-05") = .str "2024-03-05T00:00:00" ∧
    normalizeWidenedDatetimeField (.str "2024-03-05") =
      normalizeWidenedDatetimeField (.str "2024-03-05T00:00:00") ∧
    validateDatetimeField (.str "2024-03-05") =
      validateDatetimeField (.str "2024-03-05T00:00:00") ∧
    parse_date_string (.str "2024-03-05T00:00:00") = .str "2024-03-05T00:00:00" := by
  have happ : ("2024-03-05" ++ "T00:00:00" : String) = "2024-03-05T00:00:00" := by decide
  have h1 := date_widening_normalization.1 "2024-03-05" (by decide) (by decide)
  have h3 := date_widening_normalization.2.2 "2024-03-05" (2024, 3, 5) (by decide)
    (by decide)
  have h2 := date_widening_normalization.2.1 "2024-03-05T00:00:00" (by decide)
  refine ⟨?_, ?_, h3, h2⟩
  · rw [h1.1, happ]
  · have hx := h1.2
    rw [happ] at hx
    exact hx

/-- C5: on transport-level timeout or connection failure the client
retries up to 2 additional times (3 attempts total), sleeping 2 then 4
seconds (the exponential backoff capped at 8): a transport failing twice
then succeeding yields the success on attempt 3 after sleeps [2, 4]; a
transport failing three times exhausts the retry policy after exactly 3
attempts. -/
theorem retry_on_transient_failures (t : Nat → HttpOutcome)
    (h1 : isRetryableOutcome (t 1) = true) (h2 : isRetryableOutcome (t 2) = true) :
    (∀ (v : PyVal) (s : Nat), t 3 = .response s (.json v) → 200 ≤ s → s ≤ 299 →
        make_request t = ⟨.ok v, 3, [2, 4]⟩) ∧
    (isRetryableOutcome (t 3) = true →
        make_request t =
          ⟨.error (.retryError (retryableOutcomeError (t 3))), 3, [2, 4]⟩) := by
  have step : ∀ n, isRetryableOutcome (t n) = true →
      singleRequest (t n) = .error (retryableOutcomeError (t n)) ∧
      isRetryable (retryableOutcomeError (t n)) = true := by
    intro n hn
    cases htn : t n with
    | response s b =>
      rw [htn] at hn
      simp [isRetryableOutcome] at hn
    | timeout => simp [singleRequest, retryableOutcomeError, isRetryable, htn]
    | connectError => simp [singleRequest, retryableOutcomeError, isRetryable, htn]
  have unfold1 : ∀ (n rem : Nat) (sl : List Nat), isRetryableOutcome (t n) = true →
      rem ≠ 0 →
      runRetry t n (rem + 1) sl = runRetry t (n + 1) rem (sl ++ [waitSeconds n]) := by
    intro n rem sl hn hrem
    obtain ⟨hs, hr⟩ := step n hn
    simp [runRetry, hs, hr, hrem]
  have hw1 : waitSeconds 1 = 2 := by decide
  have hw2 : waitSeconds 2 = 4 := by decide
  have e1 : runRetry t 1 3 [] = runRetry t 2 2 [2] := by
    have := unfold1 1 2 [] h1 (by decide)
    rw [hw1] at this
    exact this
  have e2 : runRetry t 2 2 [2] = runRetry t 3 1 [2, 4] := by
    have := unfold1 2 1 [2] h2 (by decide)
    rw [hw2] at this
    exact this
  constructor
  · intro v s h3 hs1 hs2
    have e3 : runRetry t 3 1 [2, 4] = ⟨.ok v, 3, [2, 4]⟩ := by
      have hcond : 200 ≤ s ∧ s ≤ 299 := ⟨hs1, hs2⟩
      simp [runRetry, singleRequest, h3, hcond]
    show runRetry t 1 3 [] = _
    rw [e1, e2, e3]
  · intro h3
    obtain ⟨hs, hr⟩ := step 3 h3
    have e3 : runRetry t 3 1 [2, 4] =
        ⟨.error (.retryError (retryableOutcomeError (t 3))), 3, [2, 4]⟩ := by
      simp [runRetry, hs, hr]
    show runRetry t 1 3 [] = _
    rw [e1, e2, e3]

theorem retry_on_transient_failures_witness :
    make_request exTransportRecovers = ⟨.ok (.str "ok"), 3, [2, 4]⟩ ∧
    make_request exTransportAlwaysTimeout =
      ⟨.error (.retryError .timeout), 3, [2, 4]⟩ := by
  constructor
  · exact (retry_on_transient_failures exTransportRecovers rfl rfl).1
      (.str "ok") 200 rfl (by decide) (by decide)
  · exact (retry_on_transient_failures exTransportAlwaysTimeout rfl rfl).2 rfl

/-- C6: a non-2xx HTTP response is never retried — the request fails on
the first attempt, with no sleeps, carrying the status code and the
parsed error body (JSON when parseable, raw text otherwise). -/
theorem no_retry_on_http_error (t : Nat → HttpOutcome) (status : Nat)
    (body : HttpBody) (h1 : t 1 = .response status body)
    (h2 : ¬ (200 ≤ status ∧ status ≤ 299)) :
    make_request t = ⟨.error (.httpStatusError status (errorDetail body)), 1, []⟩ := by
  have hs : singleRequest (t 1) = .error (.httpStatusError status (errorDetail body)) := by
    simp [singleRequest, h1, h2]
  have hrun : runRetry t 1 (2 + 1) [] =
      ⟨.error (.httpStatusError status (errorDetail body)), 1, []⟩ := by
    simp [runRetry, hs, isRetryable]
  exact hrun

theorem no_retry_on_http_error_witness :
    make_request exTransportBadRequest =
      ⟨.error (.httpStatusError 400 (.json (.dict [("error", .str "Bad request")]))),
        1, []⟩ :=
  no_retry_on_http_error exTransportBadRequest 400
    (.json (.dict [("error", .str "Bad request")])) rfl (by decide)

end Spec2Proof
